import Mathlib

/-!
A shallow embedding of `mris_seg2annot.c`.

The program converts a volume-encoded surface segmentation into a surface
annotation.  The embedding follows `main`, `parse_commandline`,
`check_options` and the helper exits of the C file.

Conventions of the embedding

* The library routines called by the file (`handle_version_option`,
  `CMDargNErr`, `CTABread`, `read_named_annotation_table` /
  `index_to_annotation`, `MRIread`, `MRIgetVoxVal`, `getenv`, `MRISread`,
  `MRISwriteAnnotation`) are not part of the file; they are the fields of a
  `World` record and every theorem quantifies over them.
* `exit(n)` and `return(n)` from `main` are the outcome `Outcome.exit n`
  (`n` is the C `int` handed to `exit`).  Reading outside an array or writing
  past the end of the 2000 byte buffer `tmpstr` is `Outcome.undefined`.
* A run records the calls that touch files or the environment, in order, in
  `Run.trace`.  Diagnostics printed with `printf`/`fprintf` are not recorded.
* C `int` values are `Int`; no arithmetic of the file can overflow (the only
  arithmetic is the loop counter, bounded by `nvertices`).
-/

namespace MrisSeg2Annot

/-! ## Data model -/

/-- One row of a colour table as the data model describes it:
index, name and an RGBA colour. -/
structure CTEntry where
  index : Int
  name : String
  r : Nat
  g : Nat
  b : Nat
  a : Nat
deriving DecidableEq, Repr

/-- Modelled from the spec: the type `COLOR_TABLE` (declared in a header that
is not part of the file).  "ColorTable: ordered list of entries, each
{index, name, color (r,g,b,a)}", together with "the table's designated
unknown sentinel code". -/
structure COLOR_TABLE where
  entries : List CTEntry
  sentinel : Int
deriving DecidableEq, Repr

/-- The volume `MRI *surfseg`.  Only the voxels `(c,0,0,0)` are read by the
program; `vox` lists them for `c = 0 .. width-1`, each already converted to
`int` as the assignment `segid = MRIgetVoxVal(...)` does. -/
structure MRI where
  vox : List Int
deriving DecidableEq, Repr

/-- A vertex of the surface: the `annotation` field written by the program
and all its other fields, `rest`. -/
structure VERTEX (V : Type) where
  annotation : Int
  rest : V
deriving DecidableEq, Repr

/-- The surface `MRI_SURFACE`: the vertex array, the colour table reference
`ct` and every other field, `rest`. -/
structure MRI_SURFACE (V S : Type) where
  vertices : List (VERTEX V)
  ct : Option COLOR_TABLE
  rest : S
deriving DecidableEq, Repr

/-- The field `nvertices`: the number of entries of the vertex array. -/
def MRI_SURFACE.nvertices {V S : Type} (mris : MRI_SURFACE V S) : Nat :=
  mris.vertices.length

/-- The file level variables written by `parse_commandline`
(`NULL` is `none`). -/
structure Options where
  debug : Bool
  checkoptsonly : Bool
  surfsegfile : Option String
  subject : Option String
  hemi : Option String
  ctabfile : Option String
  annotfile : Option String
deriving DecidableEq, Repr

/-- The initial values of the file level variables (lines 49-55). -/
def initial_options : Options :=
  { debug := false, checkoptsonly := false, surfsegfile := none,
    subject := none, hemi := none, ctabfile := none, annotfile := none }

/-- A call that touches a file or the environment. -/
inductive Event (V S : Type) where
  | CTABread (fname : String)
  | read_named_annotation_table (fname : String)
  | MRIread (fname : String)
  | getenv (name : String)
  | MRISread (fname : String)
  | MRISwriteAnnotation (mris : MRI_SURFACE V S) (fname : String)
deriving DecidableEq, Repr

/-- How a run ends. -/
inductive Outcome where
  | exit (status : Int)
  | undefined
deriving DecidableEq, Repr

/-- A run of the program: how it ended and the calls it made. -/
structure Run (V S : Type) where
  outcome : Outcome
  trace : List (Event V S)
deriving DecidableEq, Repr

/-- The library routines and the environment the program runs against. -/
structure World (V S : Type) where
  /-- `handle_version_option(argc, argv, ...)`: the returned `nargs` and the
  contents of `argv` after the call (the first `argc - nargs` entries are the
  ones `main` goes on to use). -/
  handle_version_option : List String → Int × List String
  /-- `CMDargNErr(option, n)` does not return; this is the status it exits
  with. -/
  CMDargNErr : String → Int → Int
  /-- `CTABread(fname)`; `none` is `NULL`. -/
  CTABread : String → Option COLOR_TABLE
  /-- `read_named_annotation_table(fname)`: the returned error code
  (0 is success). -/
  read_named_annotation_table : String → Int
  /-- `index_to_annotation` as it behaves once
  `read_named_annotation_table(fname)` has been called. -/
  index_to_annotation : String → Int → Int
  /-- `MRIread(fname)`; `none` is `NULL`. -/
  MRIread : String → Option MRI
  /-- `getenv(name)`; `none` is `NULL`. -/
  getenv : String → Option String
  /-- `MRISread(fname)`; `none` is `NULL`. -/
  MRISread : String → Option (MRI_SURFACE V S)
  /-- `MRISwriteAnnotation(mris, fname)`: the returned error code
  (0 is success). -/
  MRISwriteAnnotation : MRI_SURFACE V S → String → Int

/-! ## Command line -/

deriving instance DecidableEq for Except

/-- `!strcasecmp(a, b)`: equality of two tokens ignoring ASCII case. -/
def strcaseeq (a b : String) : Bool :=
  a.data.map Char.toLower == b.data.map Char.toLower

/-- `usage_exit` (lines 184-188): `exit(1)`. -/
def usage_exit : Int := 1

/-- `print_help` (lines 209-214): `exit(1)`. -/
def print_help : Int := 1

/-- `print_version` (lines 216-220): `exit(1)`. -/
def print_version : Int := 1

/-- The `while(nargc > 0)` loop of `parse_commandline` (lines 132-180).
`pargv` is the list of the `nargc` tokens not yet consumed, `o` the current
values of the file level variables.  `Except.error n` is `exit(n)`. -/
def parse_loop {V S : Type} (w : World V S) : List String → Options → Except Int Options
  | [], o => .ok o
  | option :: pargv, o =>
    if strcaseeq option "--help" then .error print_help
    else if strcaseeq option "--version" then .error print_version
    else if strcaseeq option "--debug" then parse_loop w pargv { o with debug := true }
    else if strcaseeq option "--checkopts" then
      parse_loop w pargv { o with checkoptsonly := true }
    else if strcaseeq option "--nocheckopts" then
      parse_loop w pargv { o with checkoptsonly := false }
    else if strcaseeq option "--s" then
      match pargv with
      | [] => .error (w.CMDargNErr option 1)
      | v :: pargv => parse_loop w pargv { o with subject := some v }
    else if strcaseeq option "--seg" then
      match pargv with
      | [] => .error (w.CMDargNErr option 1)
      | v :: pargv => parse_loop w pargv { o with surfsegfile := some v }
    else if strcaseeq option "--h" || strcaseeq option "--hemi" then
      match pargv with
      | [] => .error (w.CMDargNErr option 1)
      | v :: pargv => parse_loop w pargv { o with hemi := some v }
    else if strcaseeq option "--ctab" then
      match pargv with
      | [] => .error (w.CMDargNErr option 1)
      | v :: pargv => parse_loop w pargv { o with ctabfile := some v }
    else if strcaseeq option "--o" then
      match pargv with
      | [] => .error (w.CMDargNErr option 1)
      | v :: pargv => parse_loop w pargv { o with annotfile := some v }
    else .error (-1)

/-- `parse_commandline(argc, argv)` (lines 123-182); `argv` holds the `argc`
tokens, `o` the file level variables on entry. -/
def parse_commandline {V S : Type} (w : World V S) (argv : List String) (o : Options) :
    Except Int Options :=
  if argv.length < 1 then .error usage_exit
  else parse_loop w argv o

/-- `check_options` (lines 222-245): `Except.error 1` is `exit(1)`. -/
def check_options (o : Options) : Except Int Unit :=
  if o.subject = none then .error 1
  else if o.hemi = none then .error 1
  else if o.ctabfile = none then .error 1
  else if o.annotfile = none then .error 1
  else if o.surfsegfile = none then .error 1
  else .ok ()

/-! ## The assignment loop and `main` -/

/-- `MRIgetVoxVal(surfseg, c, 0, 0, 0)` converted to `int`; `none` when the
column `c` lies outside the volume (the C call then reads out of bounds). -/
def MRIgetVoxVal (surfseg : MRI) (c : Nat) : Option Int :=
  surfseg.vox[c]?

/-- The assignment `vertices[vtxno].annotation = ano` on the vertex array. -/
def set_vertex_annotation {V : Type} : List (VERTEX V) → Nat → Int → List (VERTEX V)
  | [], _, _ => []
  | v :: vs, 0, ano => { v with annotation := ano } :: vs
  | v :: vs, n + 1, ano => v :: set_vertex_annotation vs n ano

/-- The statement `mris->vertices[vtxno].annotation = ano` (line 113). -/
def set_annotation {V S : Type} (mris : MRI_SURFACE V S) (vtxno : Nat) (ano : Int) :
    MRI_SURFACE V S :=
  { mris with vertices := set_vertex_annotation mris.vertices vtxno ano }

/-- The loop of lines 110-115, entered with the counter at `vtxno`:
`for( ; vtxno < mris->nvertices; vtxno++)`.  The result is the value of the
counter and the surface when the loop is left, `none` when a voxel outside
the volume is read. -/
def assign_loop {V S : Type} ( index_to_annotation : Int → Int) (surfseg : MRI)
    (vtxno : Nat) (mris : MRI_SURFACE V S) : Option (Nat × MRI_SURFACE V S) :=
  if vtxno < mris.nvertices then
    match MRIgetVoxVal surfseg vtxno with
    | none => none
    | some segid =>
      let ano := index_to_annotation segid
      assign_loop index_to_annotation surfseg (vtxno + 1) ( set_annotation mris vtxno ano)
  else some (vtxno, mris)
termination_by mris.nvertices - vtxno
decreasing_by
  have hlength : ∀ (vs : List (VERTEX V)) (n : Nat) (a : Int),
      ( set_vertex_annotation vs n a).length = vs.length := by
    intro vs
    induction vs with
    | nil => intro n a; rfl
    | cons x xs ih =>
      intro n a
      cases n with
      | zero => rfl
      | succ n => simp [ set_vertex_annotation, ih]
  simp only [ set_annotation, MRI_SURFACE.nvertices, hlength] at *
  omega

/-- The tokens handed to `parse_commandline` (lines 68-81): `argv` as
`handle_version_option` left it, without `argv[0]`, cut to the
`argc - nargs - 1` tokens that `main` counts. -/
def cmdargs {V S : Type} (w : World V S) (argv : List String) : List String :=
  ((w.handle_version_option argv).2.drop 1).take
    (((argv.length : Int) - (w.handle_version_option argv).1) - 1).toNat

/-- Lines 86-120 of `main`: the part that runs once the options are checked,
with the five option values (non-`NULL` after `check_options`).  The status
returned by `read_named_annotation_table` (line 93) and by
`MRISwriteAnnotation` (line 118) is not looked at by the program. -/
def pipeline {V S : Type} (w : World V S)
    (subject hemi ctabfile annotfile surfsegfile : String) : Run V S :=
  match w.CTABread ctabfile with
  | none => ⟨.exit 1, [.CTABread ctabfile]⟩
  | some ctab =>
    let _status := w.read_named_annotation_table ctabfile
    match w.MRIread surfsegfile with
    | none =>
      ⟨.exit 1, [.CTABread ctabfile, .read_named_annotation_table ctabfile,
        .MRIread surfsegfile]⟩
    | some surfseg =>
      match w.getenv "SUBJECTS_DIR" with
      | none =>
        ⟨.exit 1, [.CTABread ctabfile, .read_named_annotation_table ctabfile,
          .MRIread surfsegfile, .getenv "SUBJECTS_DIR"]⟩
      | some SUBJECTS_DIR =>
        let tmpstr := SUBJECTS_DIR ++ "/" ++ subject ++ "/surf/" ++ hemi ++ ".white"
        if 2000 < tmpstr.utf8ByteSize + 1 then
          ⟨.undefined, [.CTABread ctabfile, .read_named_annotation_table ctabfile,
            .MRIread surfsegfile, .getenv "SUBJECTS_DIR"]⟩
        else
          match w.MRISread tmpstr with
          | none =>
            ⟨.exit 1, [.CTABread ctabfile, .read_named_annotation_table ctabfile,
              .MRIread surfsegfile, .getenv "SUBJECTS_DIR", .MRISread tmpstr]⟩
          | some mris =>
            let mris := { mris with ct := some ctab }
            match assign_loop (w.index_to_annotation ctabfile) surfseg 0 mris with
            | none =>
              ⟨.undefined, [.CTABread ctabfile, .read_named_annotation_table ctabfile,
                .MRIread surfsegfile, .getenv "SUBJECTS_DIR", .MRISread tmpstr]⟩
            | some (_, mris) =>
              let _err := w.MRISwriteAnnotation mris annotfile
              ⟨.exit 0, [.CTABread ctabfile, .read_named_annotation_table ctabfile,
                .MRIread surfsegfile, .getenv "SUBJECTS_DIR", .MRISread tmpstr,
                Event.MRISwriteAnnotation mris annotfile]⟩

/-- `main(argc, argv)` (lines 63-121); `argv` holds the `argc` tokens of the
command line, the program name first.  Lines 86-120 are `pipeline`. -/
def main {V S : Type} (w : World V S) (argv : List String) : Run V S :=
  let argc : Int := argv.length
  let nargs := (w.handle_version_option argv).1
  if nargs ≠ 0 ∧ argc - nargs = 1 then ⟨.exit 0, []⟩
  else
    let argc := argc - nargs
    let argc := argc - 1
    if argc = 0 then ⟨.exit usage_exit, []⟩
    else
      match parse_commandline w (cmdargs w argv) initial_options with
      | .error status => ⟨.exit status, []⟩
      | .ok o =>
        match check_options o with
        | .error status => ⟨.exit status, []⟩
        | .ok () =>
          if o.checkoptsonly then ⟨.exit 0, []⟩
          else
            match o.subject, o.hemi, o.ctabfile, o.annotfile, o.surfsegfile with
            | some subject, some hemi, some ctabfile, some annotfile, some surfsegfile =>
              pipeline w subject hemi ctabfile annotfile surfsegfile
            -- not reached: `check_options` has exited when a variable is `NULL`
            | _, _, _, _, _ => ⟨.undefined, []⟩

/-! ## Closed forms used in the statements -/

/-- The vertex array with the annotation of each vertex replaced by the
lookup of the sample at the same position, as long as both lists last. -/
def annotate {V : Type} ( index_to_annotation : Int → Int) :
    List (VERTEX V) → List Int → List (VERTEX V)
  | v :: vs, s :: ss =>
    { v with annotation := index_to_annotation s } :: annotate index_to_annotation vs ss
  | vs, _ => vs

/-! ## The command line as the interface table describes it -/

/-- Whether a token is one of the flags that are followed by a value
(`--s`, `--seg`, `--h`, `--hemi`, `--ctab`, `--o`). -/
def takes_value (t : String) : Bool :=
  strcaseeq t "--s" || strcaseeq t "--seg" || strcaseeq t "--h" || strcaseeq t "--hemi" ||
    strcaseeq t "--ctab" || strcaseeq t "--o"

/-- Whether a token is one of the eleven option names. -/
def known_option (t : String) : Bool :=
  strcaseeq t "--help" || strcaseeq t "--version" || strcaseeq t "--debug" ||
    strcaseeq t "--checkopts" || strcaseeq t "--nocheckopts" || strcaseeq t "--s" ||
    strcaseeq t "--seg" || strcaseeq t "--h" || strcaseeq t "--hemi" ||
    strcaseeq t "--ctab" || strcaseeq t "--o"

/-- The tokens in option position, left to right, each with the value token
that follows it when it is a flag that takes one. -/
def option_positions : List String → List (String × Option String)
  | [] => []
  | t :: rest =>
    if takes_value t then
      match rest with
      | [] => [(t, none)]
      | v :: rest => (t, some v) :: option_positions rest
    else (t, none) :: option_positions rest

/-- The value token following the last flag among `names` in option position,
`init` when there is none. -/
def last_value_from (names : List String) (init : Option String)
    (ps : List (String × Option String)) : Option String :=
  ps.foldl (fun acc p => if names.any (fun n => strcaseeq p.1 n) then p.2 else acc) init

/-- The value token following the last flag among `names`. -/
def last_value (names : List String) (args : List String) : Option String :=
  last_value_from names none (option_positions args)

/-- Whether the last `--checkopts` / `--nocheckopts` token in option position
is `--checkopts`; `init` when neither appears. -/
def last_checkopts_from (init : Bool) (ps : List (String × Option String)) : Bool :=
  ps.foldl (fun acc p =>
    if strcaseeq p.1 "--checkopts" then true
    else if strcaseeq p.1 "--nocheckopts" then false else acc) init

/-- Whether the last `--checkopts` / `--nocheckopts` token in option position
is `--checkopts` (`false` when neither appears). -/
def last_checkopts (args : List String) : Bool :=
  last_checkopts_from false (option_positions args)

/-! ## The calls of a run -/

/-- The surface file name built on line 104. -/
def surface_path (SUBJECTS_DIR subject hemi : String) : String :=
  SUBJECTS_DIR ++ "/" ++ subject ++ "/surf/" ++ hemi ++ ".white"

/-- The calls of a run that gets as far as reading the surface. -/
def calls_before_write {V S : Type} (ctabfile surfsegfile tmpstr : String) : List (Event V S) :=
  [.CTABread ctabfile, .read_named_annotation_table ctabfile, .MRIread surfsegfile,
    .getenv "SUBJECTS_DIR", .MRISread tmpstr]

/-! ## The colour table lookup and a concrete setting -/

/-- Modelled from the spec: the packing of an entry's colour into an
annotation code, "code = B*65536 + G*256 + R" (the packing is done by the
annotation library, which is not part of the file). -/
def annotation_code (e : CTEntry) : Int :=
  (e.b : Int) * 65536 + (e.g : Int) * 256 + (e.r : Int)

/-- Modelled from the spec: `index_to_annotation` (defined in the annotation
library, not part of the file).  "If segid matches a table index, return that
entry's packed color code; if segid has no matching entry, return the table's
designated unknown sentinel code." -/
def lookup (ct : COLOR_TABLE) (segid : Int) : Int :=
  match ct.entries.find? (fun e => e.index == segid) with
  | some e => annotation_code e
  | none => ct.sentinel

/-- The table of the worked example: index 0 is "unknown", index 1 is
"cortex". -/
def example_table : COLOR_TABLE :=
  { entries := [⟨0, "unknown", 0, 0, 0, 0⟩, ⟨1, "cortex", 205, 62, 78, 0⟩], sentinel := -1 }

/-- A surface of three vertices; `rest` numbers them. -/
def example_surface : MRI_SURFACE Nat Unit :=
  { vertices := [⟨0, 10⟩, ⟨0, 11⟩, ⟨0, 12⟩], ct := none, rest := () }

/-- The segmentation of the worked example. -/
def example_volume : MRI :=
  { vox := [1, 0, 5] }

/-- A world in which every file of `example_argv` can be read and
`SUBJECTS_DIR` is `/subjects`. -/
def example_world : World Nat Unit :=
  { handle_version_option := fun argv => (0, argv)
    CMDargNErr := fun _ _ => -1
    CTABread := fun f => if f = "colors.ctab" then some example_table else none
    read_named_annotation_table := fun _ => 0
    index_to_annotation := fun _ => lookup example_table
    MRIread := fun f => if f = "lh.seg.mgh" then some example_volume else none
    getenv := fun n => if n = "SUBJECTS_DIR" then some "/subjects" else none
    MRISread := fun f =>
      if f = "/subjects/bert/surf/lh.white" then some example_surface else none
    MRISwriteAnnotation := fun _ _ => 0 }

/-- The same world with `SUBJECTS_DIR` unset. -/
def example_world_no_env : World Nat Unit :=
  { example_world with getenv := fun _ => none }

/-- The same world with an annotation writer that always reports an error. -/
def example_world_write_fails : World Nat Unit :=
  { example_world with MRISwriteAnnotation := fun _ _ => -1 }

/-- A complete command line. -/
def example_argv : List String :=
  ["mris_seg2annot", "--seg", "lh.seg.mgh", "--s", "bert", "--h", "lh",
    "--ctab", "colors.ctab", "--o", "lh.seg.annot"]

/-- The file level variables after parsing `example_argv`. -/
def example_options : Options :=
  { debug := false, checkoptsonly := false, surfsegfile := some "lh.seg.mgh",
    subject := some "bert", hemi := some "lh", ctabfile := some "colors.ctab",
    annotfile := some "lh.seg.annot" }

/-- The surface `example_surface` after the assignment loop. -/
def example_annotated : MRI_SURFACE Nat Unit :=
  { vertices := [⟨5127885, 10⟩, ⟨0, 11⟩, ⟨-1, 12⟩], ct := some example_table, rest := () }

/-- The calls of a complete run in `example_world`. -/
def example_trace : List (Event Nat Unit) :=
  [.CTABread "colors.ctab", .read_named_annotation_table "colors.ctab",
    .MRIread "lh.seg.mgh", .getenv "SUBJECTS_DIR",
    .MRISread "/subjects/bert/surf/lh.white",
    Event.MRISwriteAnnotation example_annotated "lh.seg.annot"]

/-! ## The vertex array -/

theorem set_vertex_annotation_length {V : Type} (vs : List (VERTEX V)) (n : Nat) (ano : Int) :
    ( set_vertex_annotation vs n ano).length = vs.length := by
  induction vs generalizing n with
  | nil => rfl
  | cons v vs ih =>
    cases n with
    | zero => rfl
    | succ n => simp [ set_vertex_annotation, ih]

theorem set_annotation_nvertices {V S : Type} (mris : MRI_SURFACE V S) (vtxno : Nat)
    (ano : Int) : ( set_annotation mris vtxno ano).nvertices = mris.nvertices := by
  simp [ set_annotation, MRI_SURFACE.nvertices, set_vertex_annotation_length]

/-! ## Basic facts about the control flow of `main` -/

theorem parse_commandline_ok_ne_nil {V S : Type} (w : World V S) (args : List String)
    (o o1 : Options) (h : parse_commandline w args o = .ok o1) : args ≠ [] := by
  intro hnil
  subst hnil
  simp [parse_commandline] at h

theorem cmdargs_ne_nil_guards {V S : Type} (w : World V S) (argv : List String)
    (h : cmdargs w argv ≠ []) :
    ¬ ((w.handle_version_option argv).1 ≠ 0 ∧
        (argv.length : Int) - (w.handle_version_option argv).1 = 1) ∧
    ¬ ((argv.length : Int) - (w.handle_version_option argv).1 - 1 = 0) := by
  have key : ¬ ((argv.length : Int) - (w.handle_version_option argv).1 - 1 = 0) := by
    intro h0
    apply h
    simp [cmdargs, h0]
  refine ⟨?_, key⟩
  rintro ⟨_, h1⟩
  apply key
  omega

/-- After a successful parse, `main` is decided by `check_options`, the
`checkoptsonly` gate and `pipeline`. -/
theorem main_of_parse_ok {V S : Type} (w : World V S) (argv : List String) (o : Options)
    (h : parse_commandline w (cmdargs w argv) initial_options = .ok o) :
    main w argv =
      match check_options o with
      | .error status => ⟨.exit status, []⟩
      | .ok () =>
        if o.checkoptsonly then ⟨.exit 0, []⟩
        else
          match o.subject, o.hemi, o.ctabfile, o.annotfile, o.surfsegfile with
          | some subject, some hemi, some ctabfile, some annotfile, some surfsegfile =>
            pipeline w subject hemi ctabfile annotfile surfsegfile
          | _, _, _, _, _ => ⟨.undefined, []⟩ := by
  obtain ⟨g1, g2⟩ := cmdargs_ne_nil_guards w argv (parse_commandline_ok_ne_nil w _ _ _ h)
  unfold main
  simp only [g1, g2, if_false, h]

theorem check_options_ok_iff (o : Options) :
    check_options o = .ok () ↔
      o.subject ≠ none ∧ o.hemi ≠ none ∧ o.ctabfile ≠ none ∧ o.annotfile ≠ none ∧
        o.surfsegfile ≠ none := by
  unfold check_options
  by_cases h1 : o.subject = none <;> by_cases h2 : o.hemi = none <;>
    by_cases h3 : o.ctabfile = none <;> by_cases h4 : o.annotfile = none <;>
    by_cases h5 : o.surfsegfile = none <;> simp [h1, h2, h3, h4, h5]

theorem check_options_error (o : Options) (status : Int)
    (h : check_options o = .error status) : status = 1 := by
  unfold check_options at h
  repeat' split at h
  all_goals first | (injection h with h; exact h.symm) | cases h

/-- The run of `main` when the options are complete and `checkoptsonly` is
clear. -/
theorem main_eq_pipeline {V S : Type} (w : World V S) (argv : List String) (o : Options)
    (subject hemi ctabfile annotfile surfsegfile : String)
    (h : parse_commandline w (cmdargs w argv) initial_options = .ok o)
    (hs : o.subject = some subject) (hh : o.hemi = some hemi)
    (hc : o.ctabfile = some ctabfile) (ha : o.annotfile = some annotfile)
    (hg : o.surfsegfile = some surfsegfile) (hk : o.checkoptsonly = false) :
    main w argv = pipeline w subject hemi ctabfile annotfile surfsegfile := by
  have hco : check_options o = .ok () := by
    rw [check_options_ok_iff]; simp [hs, hh, hc, ha, hg]
  rw [main_of_parse_ok w argv o h, hco]
  simp [hk, hs, hh, hc, ha, hg]

/-- A run of `main` either makes no call at all or is `pipeline` on the parsed
options. -/
theorem main_trace_nil_or_pipeline {V S : Type} (w : World V S) (argv : List String) :
    (main w argv).trace = [] ∨
      ∃ o subject hemi ctabfile annotfile surfsegfile,
        parse_commandline w (cmdargs w argv) initial_options = .ok o ∧
        o.subject = some subject ∧ o.hemi = some hemi ∧ o.ctabfile = some ctabfile ∧
        o.annotfile = some annotfile ∧ o.surfsegfile = some surfsegfile ∧
        o.checkoptsonly = false ∧
        main w argv = pipeline w subject hemi ctabfile annotfile surfsegfile := by
  cases hp : parse_commandline w (cmdargs w argv) initial_options with
  | error status =>
    left
    unfold main
    simp only [hp]
    split
    · rfl
    · split <;> rfl
  | ok o =>
    rw [main_of_parse_ok w argv o hp]
    cases hco : check_options o with
    | error status => left; rfl
    | ok u =>
      cases hk : o.checkoptsonly with
      | true => left; simp
      | false =>
        rw [check_options_ok_iff] at hco
        obtain ⟨h1, h2, h3, h4, h5⟩ := hco
        obtain ⟨subject, hs⟩ := Option.ne_none_iff_exists'.mp h1
        obtain ⟨hemi, hh⟩ := Option.ne_none_iff_exists'.mp h2
        obtain ⟨ctabfile, hc⟩ := Option.ne_none_iff_exists'.mp h3
        obtain ⟨annotfile, ha⟩ := Option.ne_none_iff_exists'.mp h4
        obtain ⟨surfsegfile, hg⟩ := Option.ne_none_iff_exists'.mp h5
        right
        refine ⟨o, subject, hemi, ctabfile, annotfile, surfsegfile, rfl, hs, hh, hc, ha, hg,
          hk, ?_⟩
        simp [hs, hh, hc, ha, hg]

/-! ## The assignment loop in closed form -/

theorem set_vertex_annotation_split {V : Type} (vs : List (VERTEX V)) (k : Nat) (a : Int)
    (hk : k < vs.length) :
    ∃ v, vs.drop k = v :: vs.drop (k + 1) ∧
      ( set_vertex_annotation vs k a).take (k + 1) = vs.take k ++ [{ v with annotation := a }] ∧
      ( set_vertex_annotation vs k a).drop (k + 1) = vs.drop (k + 1) := by
  induction vs generalizing k with
  | nil => simp at hk
  | cons x xs ih =>
    cases k with
    | zero => exact ⟨x, by simp [ set_vertex_annotation]⟩
    | succ k =>
      have hk1 : k < xs.length := by simpa using hk
      obtain ⟨v, h1, h2, h3⟩ := ih k hk1
      refine ⟨v, ?_, ?_, ?_⟩
      · simpa using h1
      · simp [ set_vertex_annotation, h2]
      · simpa [ set_vertex_annotation] using h3

theorem drop_eq_cons_of_lt {α : Type} (l : List α) (k : Nat) (hk : k < l.length) :
    ∃ s, l[k]? = some s ∧ l.drop k = s :: l.drop (k + 1) := by
  induction l generalizing k with
  | nil => simp at hk
  | cons x xs ih =>
    cases k with
    | zero => exact ⟨x, by simp⟩
    | succ k =>
      have hk1 : k < xs.length := by simpa using hk
      obtain ⟨s, h1, h2⟩ := ih k hk1
      exact ⟨s, by simpa using h1, by simpa using h2⟩

/-- The loop entered at `vtxno ≤ nvertices` with enough samples leaves with the
counter at `nvertices` and the vertices from `vtxno` on annotated. -/
theorem assign_loop_closed {V S : Type} (ita : Int → Int) (surfseg : MRI) (n : Nat) :
    ∀ (vtxno : Nat) (mris : MRI_SURFACE V S), mris.nvertices - vtxno = n →
      vtxno ≤ mris.nvertices → mris.nvertices ≤ surfseg.vox.length →
      assign_loop ita surfseg vtxno mris =
        some (mris.nvertices,
          { mris with
            vertices := mris.vertices.take vtxno ++
              annotate ita (mris.vertices.drop vtxno) (surfseg.vox.drop vtxno) }) := by
  induction n with
  | zero =>
    intro vtxno mris hn hle _
    have hEq : vtxno = mris.nvertices := by omega
    subst hEq
    rw [assign_loop]
    simp only [lt_irrefl, if_false]
    have hd : mris.vertices.drop mris.nvertices = [] := by
      apply List.drop_eq_nil_of_le
      simp [MRI_SURFACE.nvertices]
    have ht : mris.vertices.take mris.nvertices = mris.vertices := by
      apply List.take_of_length_le
      simp [MRI_SURFACE.nvertices]
    rw [hd, ht]
    simp [annotate]
  | succ n ih =>
    intro vtxno mris hn hle hlen
    have hlt : vtxno < mris.nvertices := by omega
    obtain ⟨s, hs1, hs2⟩ := drop_eq_cons_of_lt surfseg.vox vtxno (by omega)
    obtain ⟨v, hv1, hv2, hv3⟩ :=
      set_vertex_annotation_split mris.vertices vtxno (ita s) hlt
    rw [assign_loop]
    simp only [hlt, if_true, MRIgetVoxVal, hs1]
    have hnv := set_annotation_nvertices mris vtxno (ita s)
    rw [ih (vtxno + 1) ( set_annotation mris vtxno (ita s)) (by rw [hnv]; omega)
      (by rw [hnv]; omega) (by rw [hnv]; exact hlen)]
    rw [hnv]
    simp only [ set_annotation, hv2, hv3, hv1, hs2, annotate, List.append_assoc,
      List.singleton_append]

/-- The whole loop, entered at 0 with enough samples. -/
theorem assign_loop_zero {V S : Type} (ita : Int → Int) (surfseg : MRI)
    (mris : MRI_SURFACE V S) (hlen : mris.nvertices ≤ surfseg.vox.length) :
    assign_loop ita surfseg 0 mris =
      some (mris.nvertices, { mris with vertices := annotate ita mris.vertices surfseg.vox }) := by
  have h := assign_loop_closed ita surfseg (mris.nvertices - 0) 0 mris rfl (Nat.zero_le _) hlen
  simpa using h

/-- With too few samples the loop reads outside the volume. -/
theorem assign_loop_short {V S : Type} (ita : Int → Int) (surfseg : MRI) (n : Nat) :
    ∀ (vtxno : Nat) (mris : MRI_SURFACE V S), surfseg.vox.length - vtxno = n →
      vtxno ≤ surfseg.vox.length → surfseg.vox.length < mris.nvertices →
      assign_loop ita surfseg vtxno mris = none := by
  induction n with
  | zero =>
    intro vtxno mris hn hle hlt
    have hEq : vtxno = surfseg.vox.length := by omega
    rw [assign_loop]
    have h1 : vtxno < mris.nvertices := by omega
    have h2 : surfseg.vox[vtxno]? = none := by
      rw [List.getElem?_eq_none_iff]; omega
    simp [h1, MRIgetVoxVal, h2]
  | succ n ih =>
    intro vtxno mris hn hle hlt
    have h1 : vtxno < mris.nvertices := by omega
    obtain ⟨s, hs1, _⟩ := drop_eq_cons_of_lt surfseg.vox vtxno (by omega)
    rw [assign_loop]
    simp only [h1, if_true, MRIgetVoxVal, hs1]
    have hnv := set_annotation_nvertices mris vtxno (ita s)
    exact ih (vtxno + 1) ( set_annotation mris vtxno (ita s)) (by omega) (by omega)
      (by rw [hnv]; exact hlt)

theorem annotate_length {V : Type} (ita : Int → Int) (vs : List (VERTEX V)) (ss : List Int) :
    (annotate ita vs ss).length = vs.length := by
  induction vs generalizing ss with
  | nil => simp [annotate]
  | cons v vs ih =>
    cases ss with
    | nil => simp [annotate]
    | cons s ss => simp [annotate, ih]

theorem annotate_rest {V : Type} (ita : Int → Int) (vs : List (VERTEX V)) (ss : List Int) :
    (annotate ita vs ss).map (fun v => v.rest) = vs.map (fun v => v.rest) := by
  induction vs generalizing ss with
  | nil => simp [annotate]
  | cons v vs ih =>
    cases ss with
    | nil => simp [annotate]
    | cons s ss => simp [annotate, ih]

theorem annotate_getElem? {V : Type} (ita : Int → Int) (vs : List (VERTEX V)) (ss : List Int)
    (k : Nat) (hk : k < vs.length) (hlen : vs.length ≤ ss.length) :
    ∃ v s, vs[k]? = some v ∧ ss[k]? = some s ∧
      (annotate ita vs ss)[k]? = some { v with annotation := ita s } := by
  induction vs generalizing ss k with
  | nil => simp at hk
  | cons x xs ih =>
    cases ss with
    | nil => simp at hlen
    | cons s ss =>
      cases k with
      | zero => exact ⟨x, s, by simp [annotate]⟩
      | succ k =>
        have hk1 : k < xs.length := by simpa using hk
        have hl1 : xs.length ≤ ss.length := by simpa using hlen
        obtain ⟨v, t, h1, h2, h3⟩ := ih ss k hk1 hl1
        exact ⟨v, t, by simpa using h1, by simpa using h2, by simpa [annotate] using h3⟩

theorem annotate_take {V : Type} (ita : Int → Int) (vs : List (VERTEX V)) (ss : List Int) :
    annotate ita vs (ss.take vs.length) = annotate ita vs ss := by
  induction vs generalizing ss with
  | nil => simp [annotate]
  | cons v vs ih =>
    cases ss with
    | nil => simp [annotate]
    | cons s ss => simp [annotate, ih]

/-! ## The parser against the interface table -/

theorem strcaseeq_congr (t a : String) (h : strcaseeq t a = true) (b : String) :
    strcaseeq t b = strcaseeq a b := by
  simp only [strcaseeq, beq_iff_eq] at h
  simp only [strcaseeq, h]

/-- One turn of the `while` loop on a non-empty argument list. -/
theorem parse_loop_cons {V S : Type} (w : World V S) (option : String) (pargv : List String)
    (o : Options) :
    parse_loop w (option :: pargv) o =
      if strcaseeq option "--help" then .error print_help
      else if strcaseeq option "--version" then .error print_version
      else if strcaseeq option "--debug" then parse_loop w pargv { o with debug := true }
      else if strcaseeq option "--checkopts" then
        parse_loop w pargv { o with checkoptsonly := true }
      else if strcaseeq option "--nocheckopts" then
        parse_loop w pargv { o with checkoptsonly := false }
      else if strcaseeq option "--s" then
        match pargv with
        | [] => .error (w.CMDargNErr option 1)
        | v :: pargv => parse_loop w pargv { o with subject := some v }
      else if strcaseeq option "--seg" then
        match pargv with
        | [] => .error (w.CMDargNErr option 1)
        | v :: pargv => parse_loop w pargv { o with surfsegfile := some v }
      else if strcaseeq option "--h" || strcaseeq option "--hemi" then
        match pargv with
        | [] => .error (w.CMDargNErr option 1)
        | v :: pargv => parse_loop w pargv { o with hemi := some v }
      else if strcaseeq option "--ctab" then
        match pargv with
        | [] => .error (w.CMDargNErr option 1)
        | v :: pargv => parse_loop w pargv { o with ctabfile := some v }
      else if strcaseeq option "--o" then
        match pargv with
        | [] => .error (w.CMDargNErr option 1)
        | v :: pargv => parse_loop w pargv { o with annotfile := some v }
      else .error (-1) := by
  cases pargv <;> rfl

/-- A scan that completes on `pre` continues on what follows with the
variables it has set. -/
theorem parse_loop_append {V S : Type} (w : World V S) (n : Nat) :
    ∀ (pre : List String), pre.length = n → ∀ (rest : List String) (o o1 : Options),
      parse_loop w pre o = .ok o1 → parse_loop w (pre ++ rest) o = parse_loop w rest o1 := by
  induction n using Nat.strong_induction_on with
  | _ n ih =>
    intro pre hlen rest o o1 h
    cases pre with
    | nil =>
      simp only [parse_loop] at h
      injection h with h
      subst h
      rfl
    | cons t pargv =>
      have hl : pargv.length < n := by simp at hlen; omega
      rw [List.cons_append, parse_loop_cons]
      rw [parse_loop_cons] at h
      by_cases c0 : strcaseeq t "--help" = true
      · rw [if_pos c0] at h; cases h
      rw [if_neg c0] at h ⊢
      by_cases c1 : strcaseeq t "--version" = true
      · rw [if_pos c1] at h; cases h
      rw [if_neg c1] at h ⊢
      by_cases c2 : strcaseeq t "--debug" = true
      · rw [if_pos c2] at h ⊢; exact ih _ hl pargv rfl rest _ _ h
      rw [if_neg c2] at h ⊢
      by_cases c3 : strcaseeq t "--checkopts" = true
      · rw [if_pos c3] at h ⊢; exact ih _ hl pargv rfl rest _ _ h
      rw [if_neg c3] at h ⊢
      by_cases c4 : strcaseeq t "--nocheckopts" = true
      · rw [if_pos c4] at h ⊢; exact ih _ hl pargv rfl rest _ _ h
      rw [if_neg c4] at h ⊢
      by_cases c5 : strcaseeq t "--s" = true
      · rw [if_pos c5] at h ⊢
        cases pargv with
        | nil => cases h
        | cons v pargv =>
          exact ih _ (by simp at hlen ⊢; omega) pargv rfl rest _ _ h
      rw [if_neg c5] at h ⊢
      by_cases c6 : strcaseeq t "--seg" = true
      · rw [if_pos c6] at h ⊢
        cases pargv with
        | nil => cases h
        | cons v pargv =>
          exact ih _ (by simp at hlen ⊢; omega) pargv rfl rest _ _ h
      rw [if_neg c6] at h ⊢
      by_cases c7 : (strcaseeq t "--h" || strcaseeq t "--hemi") = true
      · rw [if_pos c7] at h ⊢
        cases pargv with
        | nil => cases h
        | cons v pargv =>
          exact ih _ (by simp at hlen ⊢; omega) pargv rfl rest _ _ h
      rw [if_neg c7] at h ⊢
      by_cases c8 : strcaseeq t "--ctab" = true
      · rw [if_pos c8] at h ⊢
        cases pargv with
        | nil => cases h
        | cons v pargv =>
          exact ih _ (by simp at hlen ⊢; omega) pargv rfl rest _ _ h
      rw [if_neg c8] at h ⊢
      by_cases c9 : strcaseeq t "--o" = true
      · rw [if_pos c9] at h ⊢
        cases pargv with
        | nil => cases h
        | cons v pargv =>
          exact ih _ (by simp at hlen ⊢; omega) pargv rfl rest _ _ h
      rw [if_neg c9] at h ⊢
      cases h

theorem last_value_from_cons (names : List String) (init : Option String)
    (p : String × Option String) (ps : List (String × Option String)) :
    last_value_from names init (p :: ps) =
      last_value_from names (if names.any (fun n => strcaseeq p.1 n) then p.2 else init) ps :=
  rfl

theorem last_checkopts_from_cons (init : Bool) (p : String × Option String)
    (ps : List (String × Option String)) :
    last_checkopts_from init (p :: ps) =
      last_checkopts_from
        (if strcaseeq p.1 "--checkopts" then true
          else if strcaseeq p.1 "--nocheckopts" then false else init) ps :=
  rfl

theorem option_positions_cons_value (t : String) (h : takes_value t = true) (v : String)
    (rest : List String) :
    option_positions (t :: v :: rest) = (t, some v) :: option_positions rest := by
  simp [option_positions, h]

theorem option_positions_cons_plain (t : String) (h : takes_value t = false)
    (rest : List String) :
    option_positions (t :: rest) = (t, none) :: option_positions rest := by
  cases rest <;> simp [option_positions, h]

/-- What a completed scan leaves in the file level variables: for each flag
the value token following its last occurrence in option position, and for
`checkoptsonly` the last of `--checkopts` / `--nocheckopts`. -/
theorem parse_loop_spec {V S : Type} (w : World V S) (n : Nat) :
    ∀ (args : List String), args.length = n → ∀ (o o1 : Options),
      parse_loop w args o = .ok o1 →
      o1.subject = last_value_from ["--s"] o.subject (option_positions args) ∧
      o1.hemi = last_value_from ["--h", "--hemi"] o.hemi (option_positions args) ∧
      o1.ctabfile = last_value_from ["--ctab"] o.ctabfile (option_positions args) ∧
      o1.annotfile = last_value_from ["--o"] o.annotfile (option_positions args) ∧
      o1.surfsegfile = last_value_from ["--seg"] o.surfsegfile (option_positions args) ∧
      o1.checkoptsonly = last_checkopts_from o.checkoptsonly (option_positions args) := by
  induction n using Nat.strong_induction_on with
  | _ n ih =>
    intro args hlen o o1 h
    cases args with
    | nil =>
      simp only [parse_loop] at h
      injection h with h
      subst h
      simp [option_positions, last_value_from, last_checkopts_from]
    | cons t pargv =>
      have hl : pargv.length < n := by simp at hlen; omega
      rw [parse_loop_cons] at h
      by_cases c0 : strcaseeq t "--help" = true
      · rw [if_pos c0] at h; cases h
      rw [if_neg c0] at h
      by_cases c1 : strcaseeq t "--version" = true
      · rw [if_pos c1] at h; cases h
      rw [if_neg c1] at h
      by_cases c2 : strcaseeq t "--debug" = true
      · rw [if_pos c2] at h
        have e := strcaseeq_congr t _ c2
        have htv : takes_value t = false := by simp only [takes_value, e]; decide
        rw [option_positions_cons_plain _ htv]
        simp only [last_value_from_cons, last_checkopts_from_cons, List.any_cons, List.any_nil, e]
        simpa [strcaseeq] using ih _ hl pargv rfl _ _ h
      rw [if_neg c2] at h
      by_cases c3 : strcaseeq t "--checkopts" = true
      · rw [if_pos c3] at h
        have e := strcaseeq_congr t _ c3
        have htv : takes_value t = false := by simp only [takes_value, e]; decide
        rw [option_positions_cons_plain _ htv]
        simp only [last_value_from_cons, last_checkopts_from_cons, List.any_cons, List.any_nil, e]
        simpa [strcaseeq] using ih _ hl pargv rfl _ _ h
      rw [if_neg c3] at h
      by_cases c4 : strcaseeq t "--nocheckopts" = true
      · rw [if_pos c4] at h
        have e := strcaseeq_congr t _ c4
        have htv : takes_value t = false := by simp only [takes_value, e]; decide
        rw [option_positions_cons_plain _ htv]
        simp only [last_value_from_cons, last_checkopts_from_cons, List.any_cons, List.any_nil, e]
        simpa [strcaseeq] using ih _ hl pargv rfl _ _ h
      rw [if_neg c4] at h
      by_cases c5 : strcaseeq t "--s" = true
      · rw [if_pos c5] at h
        have e := strcaseeq_congr t _ c5
        cases pargv with
        | nil => cases h
        | cons v pargv =>
          have hr := ih _ (by simp at hlen ⊢; omega) pargv rfl _ _ h
          have htv : takes_value t = true := by simp only [takes_value, e]; decide
          rw [option_positions_cons_value _ htv]
          simp only [last_value_from_cons, last_checkopts_from_cons, List.any_cons, List.any_nil, e]
          simpa [strcaseeq] using hr
      rw [if_neg c5] at h
      by_cases c6 : strcaseeq t "--seg" = true
      · rw [if_pos c6] at h
        have e := strcaseeq_congr t _ c6
        cases pargv with
        | nil => cases h
        | cons v pargv =>
          have hr := ih _ (by simp at hlen ⊢; omega) pargv rfl _ _ h
          have htv : takes_value t = true := by simp only [takes_value, e]; decide
          rw [option_positions_cons_value _ htv]
          simp only [last_value_from_cons, last_checkopts_from_cons, List.any_cons, List.any_nil, e]
          simpa [strcaseeq] using hr
      rw [if_neg c6] at h
      by_cases c7 : (strcaseeq t "--h" || strcaseeq t "--hemi") = true
      · rw [if_pos c7] at h
        cases pargv with
        | nil => cases h
        | cons v pargv =>
          have hr := ih _ (by simp at hlen ⊢; omega) pargv rfl _ _ h
          rw [Bool.or_eq_true] at c7
          rcases c7 with c | c
          · have e := strcaseeq_congr t _ c
            have htv : takes_value t = true := by simp only [takes_value, e]; decide
            rw [option_positions_cons_value _ htv]
            simp only [last_value_from_cons, last_checkopts_from_cons, List.any_cons, List.any_nil, e]
            simpa [strcaseeq] using hr
          · have e := strcaseeq_congr t _ c
            have htv : takes_value t = true := by simp only [takes_value, e]; decide
            rw [option_positions_cons_value _ htv]
            simp only [last_value_from_cons, last_checkopts_from_cons, List.any_cons, List.any_nil, e]
            simpa [strcaseeq] using hr
      rw [if_neg c7] at h
      by_cases c8 : strcaseeq t "--ctab" = true
      · rw [if_pos c8] at h
        have e := strcaseeq_congr t _ c8
        cases pargv with
        | nil => cases h
        | cons v pargv =>
          have hr := ih _ (by simp at hlen ⊢; omega) pargv rfl _ _ h
          have htv : takes_value t = true := by simp only [takes_value, e]; decide
          rw [option_positions_cons_value _ htv]
          simp only [last_value_from_cons, last_checkopts_from_cons, List.any_cons, List.any_nil, e]
          simpa [strcaseeq] using hr
      rw [if_neg c8] at h
      by_cases c9 : strcaseeq t "--o" = true
      · rw [if_pos c9] at h
        have e := strcaseeq_congr t _ c9
        cases pargv with
        | nil => cases h
        | cons v pargv =>
          have hr := ih _ (by simp at hlen ⊢; omega) pargv rfl _ _ h
          have htv : takes_value t = true := by simp only [takes_value, e]; decide
          rw [option_positions_cons_value _ htv]
          simp only [last_value_from_cons, last_checkopts_from_cons, List.any_cons, List.any_nil, e]
          simpa [strcaseeq] using hr
      rw [if_neg c9] at h
      cases h

/-! ## The runs of `pipeline` -/

/-- Every run of `pipeline` has one of seven shapes. -/
theorem pipeline_cases {V S : Type} (w : World V S)
    (subject hemi ctabfile annotfile surfsegfile : String) :
    (w.CTABread ctabfile = none ∧
      pipeline w subject hemi ctabfile annotfile surfsegfile =
        ⟨.exit 1, (calls_before_write ctabfile surfsegfile "").take 1⟩) ∨
    (∃ ctab, w.CTABread ctabfile = some ctab ∧ w.MRIread surfsegfile = none ∧
      pipeline w subject hemi ctabfile annotfile surfsegfile =
        ⟨.exit 1, (calls_before_write ctabfile surfsegfile "").take 3⟩) ∨
    (∃ ctab surfseg, w.CTABread ctabfile = some ctab ∧ w.MRIread surfsegfile = some surfseg ∧
      w.getenv "SUBJECTS_DIR" = none ∧
      pipeline w subject hemi ctabfile annotfile surfsegfile =
        ⟨.exit 1, (calls_before_write ctabfile surfsegfile "").take 4⟩) ∨
    (∃ ctab surfseg sd, w.CTABread ctabfile = some ctab ∧
      w.MRIread surfsegfile = some surfseg ∧ w.getenv "SUBJECTS_DIR" = some sd ∧
      2000 < (surface_path sd subject hemi).utf8ByteSize + 1 ∧
      pipeline w subject hemi ctabfile annotfile surfsegfile =
        ⟨.undefined, (calls_before_write ctabfile surfsegfile "").take 4⟩) ∨
    (∃ ctab surfseg sd, w.CTABread ctabfile = some ctab ∧
      w.MRIread surfsegfile = some surfseg ∧ w.getenv "SUBJECTS_DIR" = some sd ∧
      w.MRISread (surface_path sd subject hemi) = none ∧
      pipeline w subject hemi ctabfile annotfile surfsegfile =
        ⟨.exit 1, calls_before_write ctabfile surfsegfile (surface_path sd subject hemi)⟩) ∨
    (∃ ctab surfseg sd mris, w.CTABread ctabfile = some ctab ∧
      w.MRIread surfsegfile = some surfseg ∧ w.getenv "SUBJECTS_DIR" = some sd ∧
      w.MRISread (surface_path sd subject hemi) = some mris ∧
      assign_loop (w.index_to_annotation ctabfile) surfseg 0 { mris with ct := some ctab } =
        none ∧
      pipeline w subject hemi ctabfile annotfile surfsegfile =
        ⟨.undefined, calls_before_write ctabfile surfsegfile (surface_path sd subject hemi)⟩) ∨
    (∃ ctab surfseg sd mris n mris1, w.CTABread ctabfile = some ctab ∧
      w.MRIread surfsegfile = some surfseg ∧ w.getenv "SUBJECTS_DIR" = some sd ∧
      w.MRISread (surface_path sd subject hemi) = some mris ∧
      assign_loop (w.index_to_annotation ctabfile) surfseg 0 { mris with ct := some ctab } =
        some (n, mris1) ∧
      pipeline w subject hemi ctabfile annotfile surfsegfile =
        ⟨.exit 0, calls_before_write ctabfile surfsegfile (surface_path sd subject hemi) ++
          [Event.MRISwriteAnnotation mris1 annotfile]⟩) := by
  unfold pipeline
  cases hc : w.CTABread ctabfile with
  | none => left; exact ⟨rfl, rfl⟩
  | some ctab =>
    right
    cases hv : w.MRIread surfsegfile with
    | none => left; exact ⟨ctab, rfl, rfl, rfl⟩
    | some surfseg =>
      right
      cases he : w.getenv "SUBJECTS_DIR" with
      | none => left; exact ⟨ctab, surfseg, rfl, rfl, rfl, rfl⟩
      | some sd =>
        right
        by_cases hb : 2000 < (surface_path sd subject hemi).utf8ByteSize + 1
        · left
          refine ⟨ctab, surfseg, sd, rfl, rfl, rfl, hb, ?_⟩
          simp only [surface_path] at hb
          simp only [hb, if_true]
          rfl
        · right
          have hb1 := hb
          simp only [surface_path] at hb1
          simp only [hb1, if_false]
          cases hm : w.MRISread (surface_path sd subject hemi) with
          | none =>
            left
            have hm1 := hm
            simp only [surface_path] at hm1
            simp only [hm1]
            exact ⟨ctab, surfseg, sd, rfl, rfl, rfl, hm, rfl⟩
          | some mris =>
            right
            have hm1 := hm
            simp only [surface_path] at hm1
            simp only [hm1]
            cases hl : assign_loop (w.index_to_annotation ctabfile) surfseg 0
                ({ mris with ct := some ctab } : MRI_SURFACE V S) with
            | none => left; exact ⟨ctab, surfseg, sd, mris, rfl, rfl, rfl, hm, hl, rfl⟩
            | some r =>
              right
              obtain ⟨n, mris1⟩ := r
              exact ⟨ctab, surfseg, sd, mris, n, mris1, rfl, rfl, rfl, hm, hl, rfl⟩

/-- The run of `pipeline` when every load succeeds, the path fits the buffer
and the volume has a sample for every vertex. -/
theorem pipeline_success {V S : Type} (w : World V S)
    (subject hemi ctabfile annotfile surfsegfile : String) (ctab : COLOR_TABLE)
    (surfseg : MRI) (sd : String) (mris : MRI_SURFACE V S)
    (hc : w.CTABread ctabfile = some ctab) (hv : w.MRIread surfsegfile = some surfseg)
    (he : w.getenv "SUBJECTS_DIR" = some sd)
    (hb : (surface_path sd subject hemi).utf8ByteSize + 1 ≤ 2000)
    (hm : w.MRISread (surface_path sd subject hemi) = some mris)
    (hlen : mris.nvertices ≤ surfseg.vox.length) :
    pipeline w subject hemi ctabfile annotfile surfsegfile =
      ⟨.exit 0, calls_before_write ctabfile surfsegfile (surface_path sd subject hemi) ++
        [Event.MRISwriteAnnotation
          { vertices := annotate (w.index_to_annotation ctabfile) mris.vertices surfseg.vox,
            ct := some ctab, rest := mris.rest } annotfile]⟩ := by
  have hb1 : ¬ 2000 < (surface_path sd subject hemi).utf8ByteSize + 1 := by omega
  have hloop := assign_loop_zero (w.index_to_annotation ctabfile) surfseg
    ({ mris with ct := some ctab } : MRI_SURFACE V S) hlen
  simp only [surface_path] at hb1 hm
  unfold pipeline
  simp only [hc, hv, he, hb1, if_false, hm, hloop]
  rfl

/-! ## The concrete setting -/

theorem example_parse {w : World Nat Unit} (h : w.handle_version_option = fun argv => (0, argv)) :
    parse_commandline w (cmdargs w example_argv) initial_options = .ok example_options := by
  simp only [cmdargs, h]
  rfl

/-- The complete run in a world that differs from `example_world` at most in
the annotation writer. -/
theorem example_run (wr : MRI_SURFACE Nat Unit → String → Int) :
    main { example_world with MRISwriteAnnotation := wr } example_argv =
      ⟨.exit 0, example_trace⟩ := by
  rw [main_eq_pipeline _ example_argv example_options "bert" "lh" "colors.ctab" "lh.seg.annot"
    "lh.seg.mgh" (example_parse rfl) rfl rfl rfl rfl rfl rfl]
  rw [pipeline_success _ "bert" "lh" "colors.ctab" "lh.seg.annot" "lh.seg.mgh" example_table
    example_volume "/subjects" example_surface rfl rfl rfl (by decide) rfl (by decide)]
  rfl

/-- C4: when `parse_commandline` accepts the argument list and leaves one of
subject, hemi, ctabfile, annotfile, surfsegfile unset, `check_options` exits
with status 1 and `main` ends with status 1 without having made any call that
reads or writes a file, whatever `checkoptsonly` is. -/
theorem missing_required_flag_exit {V S : Type} (w : World V S) (argv : List String)
    (o : Options)
    (hparse : parse_commandline w (cmdargs w argv) initial_options = .ok o)
    (hmiss : o.subject = none ∨ o.hemi = none ∨ o.ctabfile = none ∨ o.annotfile = none ∨
      o.surfsegfile = none) :
    check_options o = .error 1 ∧ main w argv = ⟨.exit 1, []⟩ := by
  have hco : check_options o = .error 1 := by
    cases hc : check_options o with
    | error status => rw [check_options_error o status hc]
    | ok u =>
      rw [check_options_ok_iff] at hc
      obtain ⟨h1, h2, h3, h4, h5⟩ := hc
      rcases hmiss with h | h | h | h | h <;> contradiction
  refine ⟨hco, ?_⟩
  rw [main_of_parse_ok w argv o hparse, hco]

/-- C4 at a concrete input: `--checkopts --s bert --h lh --ctab colors.ctab
--o lh.seg.annot` lacks `--seg`. -/
theorem missing_required_flag_exit_witness :
    check_options { example_options with checkoptsonly := true, surfsegfile := none } =
        .error 1 ∧
      main example_world ["mris_seg2annot", "--checkopts", "--s", "bert", "--h", "lh",
        "--ctab", "colors.ctab", "--o", "lh.seg.annot"] = ⟨.exit 1, []⟩ :=
  missing_required_flag_exit example_world
    ["mris_seg2annot", "--checkopts", "--s", "bert", "--h", "lh", "--ctab", "colors.ctab",
      "--o", "lh.seg.annot"]
    { example_options with checkoptsonly := true, surfsegfile := none }
    (by decide) (by decide)

/-- C7: when the scan of `parse_commandline` completes on the tokens `pre` and
the next token `tok` is none of the eleven option names (compared without
regard to case), `parse_commandline` exits with status -1 whatever follows,
and `main` ends with status -1 without having made any call that reads or
writes a file. -/
theorem unknown_option_exit {V S : Type} (w : World V S) (argv pre post : List String)
    (tok : String) (o1 : Options)
    (hargs : cmdargs w argv = pre ++ tok :: post)
    (hpre : parse_loop w pre initial_options = .ok o1)
    (hunknown : known_option tok = false) :
    parse_commandline w (cmdargs w argv) initial_options = .error (-1) ∧
      main w argv = ⟨.exit (-1), []⟩ := by
  have hloop : parse_loop w (tok :: post) o1 = .error (-1) := by
    simp only [known_option, Bool.or_eq_false_iff] at hunknown
    obtain ⟨⟨⟨⟨⟨⟨⟨⟨⟨⟨h1, h2⟩, h3⟩, h4⟩, h5⟩, h6⟩, h7⟩, h8⟩, h9⟩, h10⟩, h11⟩ := hunknown
    rw [parse_loop_cons]
    simp [h1, h2, h3, h4, h5, h6, h7, h8, h9, h10, h11]
  have hp : parse_commandline w (cmdargs w argv) initial_options = .error (-1) := by
    rw [hargs]
    unfold parse_commandline
    rw [if_neg (by simp), parse_loop_append w pre.length pre rfl _ _ _ hpre, hloop]
  refine ⟨hp, ?_⟩
  have hne : cmdargs w argv ≠ [] := by rw [hargs]; simp
  obtain ⟨g1, g2⟩ := cmdargs_ne_nil_guards w argv hne
  unfold main
  simp only [g1, g2, if_false, hp]

/-- C7 at a concrete input: `--BOGUS` is the value of `--s` and is passed
over; `--frob` is in option position and is rejected. -/
theorem unknown_option_exit_witness :
    parse_commandline example_world
        (cmdargs example_world
          ["mris_seg2annot", "--s", "--BOGUS", "--Debug", "--frob", "--h", "lh"])
        initial_options = .error (-1) ∧
      main example_world
        ["mris_seg2annot", "--s", "--BOGUS", "--Debug", "--frob", "--h", "lh"] =
        ⟨.exit (-1), []⟩ :=
  unknown_option_exit example_world
    ["mris_seg2annot", "--s", "--BOGUS", "--Debug", "--frob", "--h", "lh"]
    ["--s", "--BOGUS", "--Debug"] ["--h", "lh"] "--frob"
    { initial_options with subject := some "--BOGUS", debug := true }
    (by decide) (by decide) (by decide)

/-- C3 fails as stated: with all five required flags, `--checkopts` and
`SUBJECTS_DIR` unset, `main` returns 0. -/
theorem unset_subjects_dir_checkopts_returns_zero :
    example_world_no_env.getenv "SUBJECTS_DIR" = none ∧
      check_options { example_options with checkoptsonly := true } = .ok () ∧
      parse_commandline example_world_no_env
        (cmdargs example_world_no_env (example_argv ++ ["--checkopts"])) initial_options =
        .ok { example_options with checkoptsonly := true } ∧
      main example_world_no_env (example_argv ++ ["--checkopts"]) = ⟨.exit 0, []⟩ := by
  refine ⟨rfl, by decide, by decide, ?_⟩
  rw [main_of_parse_ok example_world_no_env _ { example_options with checkoptsonly := true }
    (by decide)]
  rfl

/-- C3 as amended: when `parse_commandline` accepts the argument list, all five
required variables are set and `checkoptsonly` is clear, an unset
`SUBJECTS_DIR` makes `main` end with status 1, and neither the surface reader
nor the annotation writer is called. -/
theorem unset_subjects_dir_exit {V S : Type} (w : World V S) (argv : List String)
    (o : Options)
    (hparse : parse_commandline w (cmdargs w argv) initial_options = .ok o)
    (hall : check_options o = .ok ())
    (hrun : o.checkoptsonly = false)
    (henv : w.getenv "SUBJECTS_DIR" = none) :
    (main w argv).outcome = .exit 1 ∧
      (∀ e ∈ (main w argv).trace, (∀ f, e ≠ .MRISread f) ∧
        (∀ m f, e ≠ Event.MRISwriteAnnotation m f)) := by
  rw [check_options_ok_iff] at hall
  obtain ⟨h1, h2, h3, h4, h5⟩ := hall
  obtain ⟨subject, hs⟩ := Option.ne_none_iff_exists'.mp h1
  obtain ⟨hemi, hh⟩ := Option.ne_none_iff_exists'.mp h2
  obtain ⟨ctabfile, hc⟩ := Option.ne_none_iff_exists'.mp h3
  obtain ⟨annotfile, ha⟩ := Option.ne_none_iff_exists'.mp h4
  obtain ⟨surfsegfile, hg⟩ := Option.ne_none_iff_exists'.mp h5
  rw [main_eq_pipeline w argv o subject hemi ctabfile annotfile surfsegfile hparse hs hh hc ha
    hg hrun]
  rcases pipeline_cases w subject hemi ctabfile annotfile surfsegfile with
    ⟨_, hr⟩ | ⟨_, _, _, hr⟩ | ⟨_, _, _, _, _, hr⟩ | ⟨_, _, sd, _, _, he, _⟩ |
    ⟨_, _, sd, _, _, he, _⟩ | ⟨_, _, sd, _, _, _, he, _⟩ | ⟨_, _, sd, _, _, _, _, _, he, _⟩
  · rw [hr]; simp [calls_before_write]
  · rw [hr]; simp [calls_before_write]
  · rw [hr]; simp [calls_before_write]
  all_goals rw [henv] at he; cases he

/-- C3 as amended at a concrete input: `example_argv` with `SUBJECTS_DIR`
unset. -/
theorem unset_subjects_dir_exit_witness :
    (main example_world_no_env example_argv).outcome = .exit 1 ∧
      (∀ e ∈ (main example_world_no_env example_argv).trace,
        (∀ f, e ≠ .MRISread f) ∧ (∀ m f, e ≠ Event.MRISwriteAnnotation m f)) :=
  unset_subjects_dir_exit example_world_no_env example_argv example_options
    (by decide) (by decide) (by decide) rfl

/-- C2 fails on the code: in a complete run whose annotation writer reports an
error, `main` still returns 0. -/
theorem write_failure_returns_zero :
    example_world_write_fails.MRISwriteAnnotation example_annotated "lh.seg.annot" ≠ 0 ∧
      main example_world_write_fails example_argv = ⟨.exit 0, example_trace⟩ :=
  ⟨by decide, example_run (fun _ _ => -1)⟩

/-- The variables left by an accepted command line, read off the argument
list. -/
theorem parse_commandline_spec {V S : Type} (w : World V S) (args : List String)
    (o : Options) (h : parse_commandline w args initial_options = .ok o) :
    o.subject = last_value ["--s"] args ∧
    o.hemi = last_value ["--h", "--hemi"] args ∧
    o.ctabfile = last_value ["--ctab"] args ∧
    o.annotfile = last_value ["--o"] args ∧
    o.surfsegfile = last_value ["--seg"] args ∧
    o.checkoptsonly = last_checkopts args := by
  unfold parse_commandline at h
  split at h
  · cases h
  · exact parse_loop_spec w args.length args rfl initial_options o h

/-- C8: when `parse_commandline` accepts the argument list and all five
required variables are set, then (1) if the last `--checkopts` /
`--nocheckopts` token in option position is `--checkopts`, `main` returns 0
and makes no call that reads or writes a file; (2) if it is `--nocheckopts`,
or neither appears, `main` runs lines 86-120 on the parsed values: its first
call is the colour table read, and when the three loads succeed,
`SUBJECTS_DIR` is set, the path fits its buffer and the volume has a sample
for every vertex, all six calls are made, ending with the annotation write,
and `main` returns 0. -/
theorem checkopts_gate {V S : Type} (w : World V S) (argv : List String) (o : Options)
    (hparse : parse_commandline w (cmdargs w argv) initial_options = .ok o)
    (hall : check_options o = .ok ()) :
    (last_checkopts (cmdargs w argv) = true → main w argv = ⟨.exit 0, []⟩) ∧
    (last_checkopts (cmdargs w argv) = false →
      ∃ subject hemi ctabfile annotfile surfsegfile,
        o.subject = some subject ∧ o.hemi = some hemi ∧ o.ctabfile = some ctabfile ∧
        o.annotfile = some annotfile ∧ o.surfsegfile = some surfsegfile ∧
        main w argv = pipeline w subject hemi ctabfile annotfile surfsegfile ∧
        (main w argv).trace.head? = some (.CTABread ctabfile) ∧
        ∀ (ctab : COLOR_TABLE) (surfseg : MRI) (sd : String) (mris : MRI_SURFACE V S),
          w.CTABread ctabfile = some ctab → w.MRIread surfsegfile = some surfseg →
          w.getenv "SUBJECTS_DIR" = some sd →
          (surface_path sd subject hemi).utf8ByteSize + 1 ≤ 2000 →
          w.MRISread (surface_path sd subject hemi) = some mris →
          mris.nvertices ≤ surfseg.vox.length →
          main w argv =
            ⟨.exit 0, calls_before_write ctabfile surfsegfile (surface_path sd subject hemi) ++
              [Event.MRISwriteAnnotation
                { vertices :=
                    annotate (w.index_to_annotation ctabfile) mris.vertices surfseg.vox,
                  ct := some ctab, rest := mris.rest } annotfile]⟩) := by
  have hk := (parse_commandline_spec w _ o hparse).2.2.2.2.2
  constructor
  · intro hlast
    rw [main_of_parse_ok w argv o hparse, hall]
    simp [hk, hlast]
  · intro hlast
    rw [hlast] at hk
    have hall1 := hall
    rw [check_options_ok_iff] at hall1
    obtain ⟨h1, h2, h3, h4, h5⟩ := hall1
    obtain ⟨subject, hs⟩ := Option.ne_none_iff_exists'.mp h1
    obtain ⟨hemi, hh⟩ := Option.ne_none_iff_exists'.mp h2
    obtain ⟨ctabfile, hc⟩ := Option.ne_none_iff_exists'.mp h3
    obtain ⟨annotfile, ha⟩ := Option.ne_none_iff_exists'.mp h4
    obtain ⟨surfsegfile, hg⟩ := Option.ne_none_iff_exists'.mp h5
    have hmain := main_eq_pipeline w argv o subject hemi ctabfile annotfile surfsegfile hparse
      hs hh hc ha hg hk
    refine ⟨subject, hemi, ctabfile, annotfile, surfsegfile, hs, hh, hc, ha, hg, hmain, ?_, ?_⟩
    · rw [hmain]
      rcases pipeline_cases w subject hemi ctabfile annotfile surfsegfile with
        ⟨_, hr⟩ | ⟨_, _, _, hr⟩ | ⟨_, _, _, _, _, hr⟩ | ⟨_, _, _, _, _, _, _, hr⟩ |
        ⟨_, _, _, _, _, _, _, hr⟩ | ⟨_, _, _, _, _, _, _, _, _, hr⟩ |
        ⟨_, _, _, _, _, _, _, _, _, _, _, hr⟩ <;>
      · rw [hr]; simp [calls_before_write]
    · intro ctab surfseg sd mris e1 e2 e3 e4 e5 e6
      rw [hmain]
      exact pipeline_success w subject hemi ctabfile annotfile surfsegfile ctab surfseg sd mris
        e1 e2 e3 e4 e5 e6

/-- C8 at concrete inputs: `--nocheckopts` followed by `--CHECKOPTS` only
validates; `--checkopts` followed by `--nocheckopts` starts with the colour
table read. -/
theorem checkopts_gate_witness :
    main example_world (example_argv ++ ["--nocheckopts", "--CHECKOPTS"]) = ⟨.exit 0, []⟩ ∧
      (main example_world (example_argv ++ ["--checkopts", "--nocheckopts"])).trace.head? =
        some (.CTABread "colors.ctab") := by
  constructor
  · exact (checkopts_gate example_world (example_argv ++ ["--nocheckopts", "--CHECKOPTS"])
      { example_options with checkoptsonly := true } (by decide) (by decide)).1 (by decide)
  · obtain ⟨_, _, ctabfile, _, _, _, _, hc, _, _, _, hhead, _⟩ :=
      (checkopts_gate example_world (example_argv ++ ["--checkopts", "--nocheckopts"])
        example_options (by decide) (by decide)).2 (by decide)
    have hc1 : ctabfile = "colors.ctab" := by
      simp only [example_options] at hc
      injection hc with hc
      exact hc.symm
    rw [hhead, hc1]

/-! ## Claims about the assignment loop -/

/-- C1: for every lookup function, every volume and every surface with
`N = nvertices` vertices such that the volume has at least `N` samples, the
loop of lines 110-115 is left with the counter at `N` (it has run `N` times),
the surface still has `N` vertices, and the annotation of every vertex
`v < N` is the lookup applied to the sample at `(v,0,0,0)`.  The result is the
same for every volume with the same first `N` samples, whatever its length;
with fewer than `N` samples the loop does not stop at the end of the volume
but reads outside it. -/
theorem assign_loop_postcondition {V S : Type} ( index_to_annotation : Int → Int)
    (surfseg : MRI) (mris : MRI_SURFACE V S)
    (hlen : mris.nvertices ≤ surfseg.vox.length) :
    ∃ mris1, assign_loop index_to_annotation surfseg 0 mris = some (mris.nvertices, mris1) ∧
      mris1.nvertices = mris.nvertices ∧
      (∀ v, v < mris.nvertices → ∃ segid, MRIgetVoxVal surfseg v = some segid ∧
        (mris1.vertices[v]?).map (fun x => x.annotation) = some ( index_to_annotation segid)) ∧
      (∀ other : MRI, other.vox.take mris.nvertices = surfseg.vox.take mris.nvertices →
        assign_loop index_to_annotation other 0 mris = some (mris.nvertices, mris1)) ∧
      (∀ short : MRI, short.vox.length < mris.nvertices →
        assign_loop index_to_annotation short 0 mris = none) := by
  refine ⟨_, assign_loop_zero index_to_annotation surfseg mris hlen, ?_, ?_, ?_, ?_⟩
  · simp [MRI_SURFACE.nvertices, annotate_length]
  · intro v hv
    obtain ⟨x, s, _, h2, h3⟩ :=
      annotate_getElem? index_to_annotation mris.vertices surfseg.vox v hv hlen
    exact ⟨s, h2, by simp [h3]⟩
  · intro other hother
    have hlen2 : mris.nvertices ≤ other.vox.length := by
      have h := congrArg List.length hother
      simp only [List.length_take] at h
      omega
    rw [assign_loop_zero index_to_annotation other mris hlen2]
    have e1 := annotate_take index_to_annotation mris.vertices other.vox
    have e2 := annotate_take index_to_annotation mris.vertices surfseg.vox
    simp only [MRI_SURFACE.nvertices] at hother
    rw [hother] at e1
    rw [← e1, e2]
  · intro short hshort
    exact assign_loop_short index_to_annotation short (short.vox.length - 0) 0 mris rfl
      (Nat.zero_le _) hshort

/-- C1 at a concrete input: the three vertex surface and the volume
`[1, 0, 5]`. -/
theorem assign_loop_postcondition_witness :
    example_surface.nvertices ≤ example_volume.vox.length ∧
    ∃ mris1, assign_loop (lookup example_table) example_volume 0 example_surface =
        some (example_surface.nvertices, mris1) ∧
      mris1.nvertices = example_surface.nvertices ∧
      (∀ v, v < example_surface.nvertices → ∃ segid,
        MRIgetVoxVal example_volume v = some segid ∧
        (mris1.vertices[v]?).map (fun x => x.annotation) = some (lookup example_table segid)) ∧
      (∀ other : MRI,
        other.vox.take example_surface.nvertices =
          example_volume.vox.take example_surface.nvertices →
        assign_loop (lookup example_table) other 0 example_surface =
          some (example_surface.nvertices, mris1)) ∧
      (∀ short : MRI, short.vox.length < example_surface.nvertices →
        assign_loop (lookup example_table) short 0 example_surface = none) :=
  ⟨by decide,
    assign_loop_postcondition (lookup example_table) example_volume example_surface
      (by decide)⟩

theorem lookup_absent (ct : COLOR_TABLE) (segid : Int)
    (h : ∀ e ∈ ct.entries, e.index ≠ segid) : lookup ct segid = ct.sentinel := by
  have hf : ct.entries.find? (fun e => e.index == segid) = none := by
    rw [List.find?_eq_none]
    intro e he
    simpa using h e he
  simp [lookup, hf]

theorem lookup_present_aux (entries : List CTEntry) (sentinel segid : Int)
    (hunique : entries.Pairwise (fun a b => a.index ≠ b.index)) (e : CTEntry)
    (he : e ∈ entries) (hi : e.index = segid) :
    lookup ⟨entries, sentinel⟩ segid = annotation_code e := by
  induction entries with
  | nil => simp at he
  | cons x xs ih =>
    rw [List.pairwise_cons] at hunique
    rcases List.mem_cons.mp he with hx | hx
    · subst hx
      simp [lookup, hi]
    · have hne : x.index ≠ segid := by
        rw [← hi]
        exact hunique.1 e hx
      have hrec := ih hunique.2 hx
      simp only [lookup] at hrec ⊢
      rw [List.find?_cons_of_neg _ (by simpa using hne)]
      exact hrec

theorem lookup_present (ct : COLOR_TABLE)
    (hunique : ct.entries.Pairwise (fun a b => a.index ≠ b.index)) (segid : Int)
    (e : CTEntry) (he : e ∈ ct.entries) (hi : e.index = segid) :
    lookup ct segid = annotation_code e :=
  lookup_present_aux ct.entries ct.sentinel segid hunique e he hi

/-- C5: with the lookup of the data model, for every colour table, every
surface and every volume with a sample for each vertex, after the loop a
vertex whose segmentation value matches no table index holds the sentinel of
the table, and a vertex whose value is the index of an entry of a table with
unique indices holds the packed colour of that entry.  In particular, for a
table with entries of index 0 and 1, three vertices and the segmentation
`[1, 0, 5]` the annotations are the code of entry 1, the code of entry 0 and
the sentinel. -/
theorem unknown_label_sentinel {V S : Type} (ct : COLOR_TABLE) (surfseg : MRI)
    (mris : MRI_SURFACE V S) (hlen : mris.nvertices ≤ surfseg.vox.length) :
    (∃ mris1, assign_loop (lookup ct) surfseg 0 mris = some (mris.nvertices, mris1) ∧
      ∀ v, v < mris.nvertices → ∃ segid, MRIgetVoxVal surfseg v = some segid ∧
        ((∀ e ∈ ct.entries, e.index ≠ segid) →
          (mris1.vertices[v]?).map (fun x => x.annotation) = some ct.sentinel) ∧
        (∀ e ∈ ct.entries, e.index = segid →
          ct.entries.Pairwise (fun a b => a.index ≠ b.index) →
          (mris1.vertices[v]?).map (fun x => x.annotation) = some (annotation_code e))) ∧
    (∀ (e0 e1 : CTEntry) (sentinel : Int) (a b c : VERTEX V) (t : Option COLOR_TABLE) (r : S),
      e0.index = 0 → e1.index = 1 →
      assign_loop (lookup ⟨[e0, e1], sentinel⟩) ⟨[1, 0, 5]⟩ 0 ⟨[a, b, c], t, r⟩ =
        some (3, ⟨[{ a with annotation := annotation_code e1 },
          { b with annotation := annotation_code e0 },
          { c with annotation := sentinel }], t, r⟩)) := by
  constructor
  · refine ⟨_, assign_loop_zero (lookup ct) surfseg mris hlen, ?_⟩
    intro v hv
    obtain ⟨x, s, _, h2, h3⟩ := annotate_getElem? (lookup ct) mris.vertices surfseg.vox v hv hlen
    refine ⟨s, h2, ?_, ?_⟩
    · intro habs
      simp [h3, lookup_absent ct s habs]
    · intro e he hi hunique
      simp [h3, lookup_present ct hunique s e he hi]
  · intro e0 e1 sentinel a b c t r h0 h1
    rw [assign_loop_zero _ _ _ (by simp [MRI_SURFACE.nvertices])]
    simp [MRI_SURFACE.nvertices, annotate, lookup, h0, h1, List.find?]

/-- C5 at the worked example: table {0: unknown, 1: cortex}, three vertices,
segmentation `[1, 0, 5]`. -/
theorem unknown_label_sentinel_witness :
    example_surface.nvertices ≤ example_volume.vox.length ∧
    assign_loop (lookup example_table) example_volume 0 example_surface =
      some (3, { example_surface with
        vertices := [⟨annotation_code ⟨1, "cortex", 205, 62, 78, 0⟩, 10⟩,
          ⟨annotation_code ⟨0, "unknown", 0, 0, 0, 0⟩, 11⟩, ⟨example_table.sentinel, 12⟩] }) :=
  ⟨by decide,
    (unknown_label_sentinel example_table example_volume example_surface (by decide)).2
      _ _ _ _ _ _ _ _ rfl rfl⟩

/-! ## Claims about the order of the calls and the data handed over -/

/-- C9: in every run of `main` that calls the surface reader, the path handed
to it is `SUBJECTS_DIR ++ "/" ++ subject ++ "/surf/" ++ hemi ++ ".white"`,
where `SUBJECTS_DIR` is the value of the environment variable, `subject` the
value token following the last `--s` and `hemi` the value token following the
last `--h` or `--hemi`; the scan treats `--h v` and `--hemi v` alike. -/
theorem surface_path_resolution {V S : Type} (w : World V S) (argv : List String)
    (path : String) (hread : .MRISread path ∈ (main w argv).trace) :
    (∃ sd subject hemi, w.getenv "SUBJECTS_DIR" = some sd ∧
      last_value ["--s"] (cmdargs w argv) = some subject ∧
      last_value ["--h", "--hemi"] (cmdargs w argv) = some hemi ∧
      path = sd ++ "/" ++ subject ++ "/surf/" ++ hemi ++ ".white") ∧
    (∀ (v : String) (rest : List String) (o : Options),
      parse_loop w ("--h" :: v :: rest) o = parse_loop w ("--hemi" :: v :: rest) o) := by
  constructor
  · rcases main_trace_nil_or_pipeline w argv with hnil |
      ⟨o, subject, hemi, ctabfile, annotfile, surfsegfile, hparse, hs, hh, _, _, _, _, hmain⟩
    · rw [hnil] at hread
      simp at hread
    · obtain ⟨es, eh, _⟩ := parse_commandline_spec w _ o hparse
      rw [hs] at es
      rw [hh] at eh
      rw [hmain] at hread
      rcases pipeline_cases w subject hemi ctabfile annotfile surfsegfile with
        ⟨_, hr⟩ | ⟨_, _, _, hr⟩ | ⟨_, _, _, _, _, hr⟩ | ⟨_, _, _, _, _, _, _, hr⟩ |
        ⟨_, _, sd, _, _, h3, _, hr⟩ | ⟨_, _, sd, _, _, _, h3, _, _, hr⟩ |
        ⟨_, _, sd, _, _, _, _, _, h3, _, _, hr⟩
      · rw [hr] at hread; simp [calls_before_write] at hread
      · rw [hr] at hread; simp [calls_before_write] at hread
      · rw [hr] at hread; simp [calls_before_write] at hread
      · rw [hr] at hread; simp [calls_before_write] at hread
      all_goals
        rw [hr] at hread
        simp [calls_before_write] at hread
        exact ⟨sd, subject, hemi, h3, es.symm, eh.symm, by rw [hread]; rfl⟩
  · intro v rest o
    rfl

/-- C9 at a concrete input: `--h rh` is overridden by a later `--HEMI lh`. -/
theorem surface_path_resolution_witness :
    (∃ sd subject hemi, example_world.getenv "SUBJECTS_DIR" = some sd ∧
      last_value ["--s"]
        (cmdargs example_world (["mris_seg2annot", "--h", "rh"] ++ example_argv.tail ++
          ["--HEMI", "lh"])) = some subject ∧
      last_value ["--h", "--hemi"]
        (cmdargs example_world (["mris_seg2annot", "--h", "rh"] ++ example_argv.tail ++
          ["--HEMI", "lh"])) = some hemi ∧
      "/subjects/bert/surf/lh.white" = sd ++ "/" ++ subject ++ "/surf/" ++ hemi ++ ".white") ∧
    (∀ (v : String) (rest : List String) (o : Options),
      parse_loop example_world ("--h" :: v :: rest) o =
        parse_loop example_world ("--hemi" :: v :: rest) o) :=
  surface_path_resolution example_world
    (["mris_seg2annot", "--h", "rh"] ++ example_argv.tail ++ ["--HEMI", "lh"])
    "/subjects/bert/surf/lh.white"
    (by
      rw [main_eq_pipeline example_world _ example_options "bert" "lh" "colors.ctab"
        "lh.seg.annot" "lh.seg.mgh" (by decide) rfl rfl rfl rfl rfl rfl]
      rw [pipeline_success example_world "bert" "lh" "colors.ctab" "lh.seg.annot" "lh.seg.mgh"
        example_table example_volume "/subjects" example_surface rfl rfl rfl (by decide) rfl
        (by decide)]
      simp [calls_before_write, surface_path])

/-- C10: in every run of `main` that calls the annotation writer, the surface
handed to it has the same vertices in the same order as the surface returned
by the surface reader, with every per-vertex field other than `annotation`
and every surface field other than `ct` unchanged, and its `ct` is the table
returned by `CTABread` for the file named by the last `--ctab`. -/
theorem assignment_frame {V S : Type} (w : World V S) (argv : List String)
    (written : MRI_SURFACE V S) (fname : String)
    (hwrite : Event.MRISwriteAnnotation written fname ∈ (main w argv).trace) :
    ∃ ctabfile ctab tmpstr mris,
      last_value ["--ctab"] (cmdargs w argv) = some ctabfile ∧
      w.CTABread ctabfile = some ctab ∧
      .MRISread tmpstr ∈ (main w argv).trace ∧ w.MRISread tmpstr = some mris ∧
      written.ct = some ctab ∧
      written.rest = mris.rest ∧
      written.nvertices = mris.nvertices ∧
      written.vertices.map (fun v => v.rest) = mris.vertices.map (fun v => v.rest) := by
  rcases main_trace_nil_or_pipeline w argv with hnil |
    ⟨o, subject, hemi, ctabfile, annotfile, surfsegfile, hparse, _, _, hc, _, _, _, hmain⟩
  · rw [hnil] at hwrite
    simp at hwrite
  · obtain ⟨_, _, ec, _⟩ := parse_commandline_spec w _ o hparse
    rw [hc] at ec
    rw [hmain] at hwrite ⊢
    rcases pipeline_cases w subject hemi ctabfile annotfile surfsegfile with
      ⟨_, hr⟩ | ⟨_, _, _, hr⟩ | ⟨_, _, _, _, _, hr⟩ | ⟨_, _, _, _, _, _, _, hr⟩ |
      ⟨_, _, _, _, _, _, _, hr⟩ | ⟨_, _, _, _, _, _, _, _, _, hr⟩ |
      ⟨ctab, surfseg, sd, mris, n, mris1, h1, _, _, h4, hloop, hr⟩
    · rw [hr] at hwrite; simp [calls_before_write] at hwrite
    · rw [hr] at hwrite; simp [calls_before_write] at hwrite
    · rw [hr] at hwrite; simp [calls_before_write] at hwrite
    · rw [hr] at hwrite; simp [calls_before_write] at hwrite
    · rw [hr] at hwrite; simp [calls_before_write] at hwrite
    · rw [hr] at hwrite; simp [calls_before_write] at hwrite
    · rw [hr] at hwrite ⊢
      simp [calls_before_write] at hwrite
      obtain ⟨hw1, _⟩ := hwrite
      subst hw1
      by_cases hlen : mris.nvertices ≤ surfseg.vox.length
      · have hz := assign_loop_zero (w.index_to_annotation ctabfile) surfseg
          ({ mris with ct := some ctab } : MRI_SURFACE V S) hlen
        rw [hz] at hloop
        injection hloop with hloop
        injection hloop with _ hloop
        subst hloop
        refine ⟨ctabfile, ctab, surface_path sd subject hemi, mris, ec.symm, h1, ?_, h4, rfl,
          rfl, ?_, ?_⟩
        · simp [calls_before_write]
        · simp [MRI_SURFACE.nvertices, annotate_length]
        · exact annotate_rest _ _ _
      · have hs := assign_loop_short (w.index_to_annotation ctabfile) surfseg
          (surfseg.vox.length - 0) 0 ({ mris with ct := some ctab } : MRI_SURFACE V S) rfl
          (Nat.zero_le _) (by simpa [MRI_SURFACE.nvertices] using hlen)
        rw [hs] at hloop
        cases hloop

/-- C10 at a concrete input: the complete run of `example_argv`. -/
theorem assignment_frame_witness :
    ∃ ctabfile ctab tmpstr mris,
      last_value ["--ctab"] (cmdargs example_world example_argv) = some ctabfile ∧
      example_world.CTABread ctabfile = some ctab ∧
      .MRISread tmpstr ∈ (main example_world example_argv).trace ∧
      example_world.MRISread tmpstr = some mris ∧
      example_annotated.ct = some ctab ∧
      example_annotated.rest = mris.rest ∧
      example_annotated.nvertices = mris.nvertices ∧
      example_annotated.vertices.map (fun v => v.rest) = mris.vertices.map (fun v => v.rest) :=
  assignment_frame example_world example_argv example_annotated "lh.seg.annot"
    (by
      rw [example_run example_world.MRISwriteAnnotation]
      simp [example_trace])

end MrisSeg2Annot
